import Mathlib

/-!
Verification of the VeriSol AI scanner orchestration core (server/index.js).

The development shallowly embeds the analysis-orchestration engine:
text is `List Char`; each external collaborator (explorer service,
language-model service, subprocesses, filesystem) is an oracle value
recorded in an environment structure, and every helper of index.js is
translated into a total Lean function over those oracles.  Fallible
JavaScript code (functions that can `throw` / promises that can reject)
is embedded as `Except Unit`-valued functions; a caught exception
corresponds to matching on `Except.error`.
-/

namespace VeriSol

/-- Text is modelled as a list of characters. -/
abbrev Str := List Char

/-- Model of JavaScript `String.prototype.trim()`: drop leading and
trailing whitespace. -/
def trimL (s : Str) : Str :=
  ((s.dropWhile Char.isWhitespace).reverse.dropWhile Char.isWhitespace).reverse

/-- Leftmost-occurrence splitter: `splitAtFirst pat s` returns
`some (before, after)` where `before` is the text preceding the first
occurrence of `pat` in `s` and `after` the text following it, or `none`
when `pat` does not occur.  This is the semantics of a leftmost regex
match on the literal `pat` and of `String.prototype.includes`. -/
def splitAtFirst (pat : Str) : Str → Option (Str × Str)
  | [] => if pat.isEmpty then some ([], []) else none
  | c :: cs =>
    if pat.isPrefixOf (c :: cs) then some ([], (c :: cs).drop pat.length)
    else
      match splitAtFirst pat cs with
      | none => none
      | some (a, b) => some (c :: a, b)

/-- Model of JavaScript `String.prototype.includes(pat)`. -/
def containsStr (pat s : Str) : Bool := (splitAtFirst pat s).isSome

theorem splitAtFirst_cons (pat : Str) (c : Char) (cs : Str) :
    splitAtFirst pat (c :: cs) =
      if pat.isPrefixOf (c :: cs) then some ([], (c :: cs).drop pat.length)
      else
        match splitAtFirst pat cs with
        | none => none
        | some (a, b) => some (c :: a, b) := rfl

theorem splitAtFirst_decomp (pat : Str) :
    ∀ (s : Str) (p : Str × Str), splitAtFirst pat s = some p → s = p.1 ++ pat ++ p.2 := by
  intro s
  induction s with
  | nil =>
    intro p h
    cases hp : pat.isEmpty with
    | true =>
      simp only [splitAtFirst, hp, if_true, Option.some.injEq] at h
      cases h
      simp [List.isEmpty_iff.mp hp]
    | false => simp [splitAtFirst, hp] at h
  | cons c cs ih =>
    intro p h
    rw [splitAtFirst_cons] at h
    cases hpre : pat.isPrefixOf (c :: cs) with
    | true =>
      rw [hpre] at h
      simp only [if_true, Option.some.injEq] at h
      rcases List.isPrefixOf_iff_prefix.mp hpre with ⟨t, ht⟩
      have hdrop : (c :: cs).drop pat.length = t := by
        rw [← ht]; exact List.drop_left pat t
      cases h
      simp [hdrop, ← ht]
    | false =>
      rw [hpre] at h
      simp only [Bool.false_eq_true, if_false] at h
      cases hrec : splitAtFirst pat cs with
      | none => rw [hrec] at h; cases h
      | some q =>
        rw [hrec] at h
        have hq := ih q hrec
        cases q with
        | mk a b =>
          simp only at h
          cases h
          simp [hq]

theorem splitAtFirst_isSome_of_decomp (pat : Str) (hpat : pat ≠ []) :
    ∀ (a b : Str), (splitAtFirst pat (a ++ pat ++ b)).isSome = true := by
  intro a
  induction a with
  | nil =>
    intro b
    cases pat with
    | nil => exact absurd rfl hpat
    | cons p ps =>
      have hpre : (p :: ps).isPrefixOf ((p :: ps) ++ b) = true :=
        List.isPrefixOf_iff_prefix.mpr (List.prefix_append _ _)
      simp only [List.nil_append, List.cons_append] at hpre ⊢
      rw [splitAtFirst_cons, hpre]
      simp
  | cons c cs ih =>
    intro b
    simp only [List.cons_append]
    rw [splitAtFirst_cons]
    cases hpre : pat.isPrefixOf (c :: (cs ++ pat ++ b)) with
    | true => simp
    | false =>
      simp only [Bool.false_eq_true, if_false]
      have hih := ih b
      cases hrec : splitAtFirst pat (cs ++ pat ++ b) with
      | none => rw [hrec] at hih; simp at hih
      | some q => cases q with | mk x y => simp

theorem splitAtFirst_first_occurrence (c0 : Char) (ps : Str) :
    ∀ (pre rest : Str), (∀ x ∈ pre, x ≠ c0) →
      splitAtFirst (c0 :: ps) (pre ++ (c0 :: ps) ++ rest) = some (pre, rest) := by
  intro pre
  induction pre with
  | nil =>
    intro rest _
    have hpre : (c0 :: ps).isPrefixOf ((c0 :: ps) ++ rest) = true :=
      List.isPrefixOf_iff_prefix.mpr (List.prefix_append _ _)
    have hdrop : ((c0 :: ps) ++ rest).drop (c0 :: ps).length = rest :=
      List.drop_left (c0 :: ps) rest
    simp only [List.nil_append, List.cons_append] at hpre hdrop ⊢
    rw [splitAtFirst_cons, hpre]
    simp [hdrop]
  | cons a as ih =>
    intro rest hx
    have ha : (c0 == a) = false :=
      beq_eq_false_iff_ne.mpr (Ne.symm (hx a (List.mem_cons_self a as)))
    have hpre : (c0 :: ps).isPrefixOf (a :: (as ++ (c0 :: ps) ++ rest)) = false := by
      simp [List.isPrefixOf, ha]
    have hih := ih rest (fun x hxm => hx x (List.mem_cons_of_mem a hxm))
    simp only [List.cons_append] at hpre ⊢
    rw [splitAtFirst_cons, hpre]
    simp only [Bool.false_eq_true, if_false]
    rw [hih]

/-- The backtick character, written by code point. -/
def backtickChar : Char := '\x60'

/-- A triple-backtick fence marker. -/
def fenceStr : Str := "```".toList

/-- The opening marker matched by `generateFuzzTest`:
the regex in index.js is `/\x60\x60\x60solidity([\s\S]*?)\x60\x60\x60/`,
so the opening fence must carry the `solidity` tag. -/
def solFence : Str := "```solidity".toList

theorem fenceStr_eq : fenceStr = backtickChar :: "``".toList := by decide

theorem solFence_eq : solFence = backtickChar :: "``solidity".toList := by decide

/-- Embedding of `generateFuzzTest` (index.js lines 70-80), restricted to the
pure extraction step applied to the model response text.  The JS code runs
`responseText.match(/\x60\x60\x60solidity([\s\S]*?)\x60\x60\x60/)`: the leftmost
occurrence of the tagged opening fence, then a lazy capture up to the first
closing triple backtick.  `if (!match || !match[1])` throws, so a missing
match — and an empty capture — are failures (`none`); otherwise the capture
is returned with `.trim()`. -/
def generateFuzzTest (responseText : Str) : Option Str :=
  match splitAtFirst solFence responseText with
  | none => none
  | some p =>
    match splitAtFirst fenceStr p.2 with
    | none => none
    | some q => if q.1.isEmpty then none else some (trimL q.1)

/-- Modelled from the spec: the spec speaks of "a fenced code block" with no
tag requirement, so a fenced block is a stretch of text enclosed between two
triple-backtick markers.  Fuel-indexed worker counting how many such disjoint
blocks occur, scanning left to right; the fuel only bounds the recursion depth
(each counted block consumes at least six characters of the text, so a fuel of
`s.length` never runs out before the scan completes). -/
def countFencedBlocksF : Nat → Str → Nat
  | 0, _ => 0
  | Nat.succ fuel, s =>
    match splitAtFirst fenceStr s with
    | none => 0
    | some p =>
      match splitAtFirst fenceStr p.2 with
      | none => 0
      | some q => 1 + countFencedBlocksF fuel q.2

/-- Modelled from the spec: the number of disjoint triple-backtick fenced
blocks in a model response. -/
def countFencedBlocks (s : Str) : Nat := countFencedBlocksF s.length s

/-- Modelled from the spec: extraction of the first untagged fenced block,
"inner text with fences removed and leading/trailing whitespace trimmed". -/
def specExtractFenced (s : Str) : Option Str :=
  match splitAtFirst fenceStr s with
  | none => none
  | some p =>
    match splitAtFirst fenceStr p.2 with
    | none => none
    | some q => some (trimL q.1)

theorem generateFuzzTest_roundtrip (pre inner post : Str)
    (h1 : backtickChar ∉ pre) (h2 : backtickChar ∉ inner) (h3 : inner ≠ []) :
    generateFuzzTest (pre ++ solFence ++ inner ++ fenceStr ++ post) = some (trimL inner) := by
  have hx1 : ∀ x ∈ pre, x ≠ backtickChar := fun x hx he => h1 (he ▸ hx)
  have hx2 : ∀ x ∈ inner, x ≠ backtickChar := fun x hx he => h2 (he ▸ hx)
  have hs1 : splitAtFirst solFence (pre ++ solFence ++ (inner ++ fenceStr ++ post)) =
      some (pre, inner ++ fenceStr ++ post) := by
    rw [solFence_eq]
    exact splitAtFirst_first_occurrence backtickChar _ pre _ hx1
  have hs2 : splitAtFirst fenceStr (inner ++ fenceStr ++ post) = some (inner, post) := by
    rw [fenceStr_eq]
    exact splitAtFirst_first_occurrence backtickChar _ inner post hx2
  have hassoc : pre ++ solFence ++ inner ++ fenceStr ++ post =
      pre ++ solFence ++ (inner ++ fenceStr ++ post) := by simp [List.append_assoc]
  rw [hassoc]
  have hne : inner.isEmpty = false := by
    cases inner with
    | nil => exact absurd rfl h3
    | cons a l => rfl
  unfold generateFuzzTest
  rw [hs1]
  dsimp only
  rw [hs2]
  dsimp only
  rw [hne]
  simp

theorem solFence_decomp : solFence = fenceStr ++ "solidity".toList := by decide

theorem generateFuzzTest_none_of_no_fence (s : Str)
    (h : splitAtFirst fenceStr s = none) : generateFuzzTest s = none := by
  cases hsol : splitAtFirst solFence s with
  | none => simp [generateFuzzTest, hsol]
  | some p =>
    exfalso
    have hd := splitAtFirst_decomp solFence s p hsol
    rw [solFence_decomp] at hd
    have : (splitAtFirst fenceStr (p.1 ++ fenceStr ++ ("solidity".toList ++ p.2))).isSome
        = true := splitAtFirst_isSome_of_decomp fenceStr (by decide) p.1 _
    rw [show p.1 ++ fenceStr ++ ("solidity".toList ++ p.2)
        = p.1 ++ (fenceStr ++ "solidity".toList) ++ p.2 by simp] at this
    rw [← hd, h] at this
    simp at this

/-- Result of one `execPromise` subprocess invocation: the promise fulfils
(`ok = true`) on exit code zero; on a non-zero exit it rejects with an error
object carrying the captured `stdout` and `stderr` strings. -/
structure ExecResult where
  ok : Bool
  stdout : Str
  stderr : Str
deriving DecidableEq

/-- A fuzzing outcome as built by index.js: a `status` string plus a
`reason` string. -/
structure FuzzOutcome where
  status : Str
  reason : Str
deriving DecidableEq

/-- The JavaScript expression `error.stdout || error.stderr`: the captured
stdout when it is a non-empty (truthy) string, otherwise the captured
stderr. -/
def errorLogOf (r : ExecResult) : Str :=
  if r.stdout.isEmpty then r.stderr else r.stdout

/-- Whether the inspected log carries one of the two compiler-error markers
tested by index.js. -/
def hasCompilerMarker (log : Str) : Bool :=
  containsStr ("Compiler error".toList) log || containsStr ("compilation failed".toList) log

/-- Embedding of `getGenericFuzzingAnalysis` (index.js lines 45-58), as a
function of the forge subprocess result.  Exit zero gives `passed`; a
non-zero exit inspects `error.stdout || error.stderr`: a compiler-error
marker gives `incompatible`, anything else `failed` with the log appended
to the reason. -/
def getGenericFuzzingAnalysis (r : ExecResult) : FuzzOutcome :=
  if r.ok then ⟨"passed".toList, "All generic invariants passed.".toList⟩
  else if hasCompilerMarker (errorLogOf r) then
    ⟨"incompatible".toList, "Generic test suite was not compatible with this contract.".toList⟩
  else
    ⟨"failed".toList, "Generic invariant violated. Details: ".toList ++ errorLogOf r⟩

/-- The `{ status, log }` object returned by `runAIGeneratedFuzzer`. -/
structure AIRunOutput where
  status : Str
  log : Str
deriving DecidableEq

/-- Embedding of `runAIGeneratedFuzzer` (index.js lines 83-98) as a function
of the forge subprocess result (the write of the generated test file is kept
separately in the pipeline environment).  Classification mirrors the generic
adapter but with its own strings. -/
def runAIGeneratedFuzzer (r : ExecResult) : AIRunOutput :=
  if r.ok then ⟨"passed".toList, r.stdout⟩
  else if hasCompilerMarker (errorLogOf r) then
    ⟨"incompatible".toList, "AI-generated test was not compatible or failed to compile.".toList⟩
  else
    ⟨"failed".toList, errorLogOf r⟩

/-- The explorer's `getabi` response: a status flag (the string "0" means
the ABI was not found) plus the result payload. -/
structure ExplorerAbiResponse where
  statusZero : Bool
  result : Str
deriving DecidableEq

/-- Embedding of `getContractAbi` (index.js lines 61-67): throws when the
explorer reports status "0" ("ABI not found for this contract."), otherwise
returns the ABI text. -/
def getContractAbi (resp : ExplorerAbiResponse) : Except Unit Str :=
  if resp.statusZero then Except.error () else Except.ok resp.result

/-- The honeypot-check verdict parsed from the dynamic adapter's stdout. -/
structure DynResult where
  isHoneypot : Bool
  reason : Str
deriving DecidableEq

instance exceptDecEq {e a : Type} [DecidableEq e] [DecidableEq a] :
    DecidableEq (Except e a) := fun x y =>
  match x, y with
  | Except.ok v, Except.ok w =>
    if h : v = w then Decidable.isTrue (by rw [h])
    else Decidable.isFalse (by intro hc; cases hc; exact h rfl)
  | Except.error v, Except.error w =>
    if h : v = w then Decidable.isTrue (by rw [h])
    else Decidable.isFalse (by intro hc; cases hc; exact h rfl)
  | Except.ok _, Except.error _ => Decidable.isFalse (by intro hc; cases hc)
  | Except.error _, Except.ok _ => Decidable.isFalse (by intro hc; cases hc)

/-- Oracle environment for one address-analysis request: everything the
handler's `address` case observes from its external collaborators.
`staticR` and `dynR` are the settled outcomes of the Static and Dynamic
adapter promises (their engines are external); the static payload is kept
abstract as the raw parsed text. -/
structure AddressEnv where
  sourceCode : Str
  abiResp : ExplorerAbiResponse
  staticR : Except Unit Str
  dynR : Except Unit DynResult
  genExec : ExecResult
  aiResponse : Except Unit Str
  aiWriteOk : Bool
  aiExec : ExecResult
  interpR : Except Unit Str
deriving DecidableEq

/-- Embedding of the AI-driven fuzzer pipeline body (the `try` block of
index.js lines 177-185, together with the stage functions it calls):
obtain the model response (`generateContent` may reject), extract the
fenced test code (throws when extraction fails), write the test file
(`fs.writeFile` may reject), run the forge subprocess and classify, and on
a `failed` status ask the model to interpret the log (may reject).  Note
the ABI fetch is NOT part of this function: index.js calls
`getContractAbi` at line 170, outside the `try` block. -/
def aiPipeline (env : AddressEnv) : Except Unit FuzzOutcome :=
  match env.aiResponse with
  | Except.error e => Except.error e
  | Except.ok responseText =>
    match generateFuzzTest responseText with
    | none => Except.error ()
    | some _testCode =>
      if env.aiWriteOk = false then Except.error ()
      else
        let fuzzerOutput := runAIGeneratedFuzzer env.aiExec
        if fuzzerOutput.status = "failed".toList then
          match env.interpR with
          | Except.error e => Except.error e
          | Except.ok interpretation => Except.ok ⟨"failed".toList, interpretation⟩
        else Except.ok ⟨fuzzerOutput.status, fuzzerOutput.log⟩

/-- The `Address` report (index.js lines 189-195).  Its four fields are
always present by construction, mirroring the object literal. -/
structure AddressReport where
  staticAnalysis : Option Str
  dynamicAnalysis : DynResult
  genericFuzzing : FuzzOutcome
  aiFuzzing : FuzzOutcome
deriving DecidableEq

/-- Fallback sentinel for a rejected Dynamic adapter promise. -/
def honeypotFallback : DynResult := ⟨false, "Honeypot check failed.".toList⟩

/-- Fallback sentinel for a rejected Generic Fuzzer adapter promise. -/
def genericFallback : FuzzOutcome :=
  ⟨"incompatible".toList, "Generic fuzzing failed.".toList⟩

/-- Fallback sentinel installed by the `catch` around the AI pipeline. -/
def aiFallback : FuzzOutcome :=
  ⟨"incompatible".toList, "AI-driven fuzzing process failed to run.".toList⟩

/-- Embedding of the report-composition step (index.js lines 189-195):
each field of the object literal selects the fulfilled value of its task or
the corresponding fallback sentinel.  `Promise.allSettled` outcomes are
`Except Unit` values: `.ok` is a fulfilled task, `.error` a rejected one. -/
def mergeAddressReport (staticResult : Except Unit Str) (dynamicResult : Except Unit DynResult)
    (genericFuzzResult : Except Unit FuzzOutcome) (aiFuzzing : FuzzOutcome) : AddressReport :=
  ⟨match staticResult with
   | Except.ok v => some v
   | Except.error _ => none,
   match dynamicResult with
   | Except.ok v => v
   | Except.error _ => honeypotFallback,
   match genericFuzzResult with
   | Except.ok v => v
   | Except.error _ => genericFallback,
   aiFuzzing⟩

/-- Embedding of the `address` case of the `/analyze` handler (index.js
lines 166-196).  The source-code fetch throws when the explorer returns a
falsy source field; `getContractAbi` is awaited next, before any engine
starts, and its rejection propagates out of the case; then the three
adapter promises settle (`getGenericFuzzingAnalysis` never rejects — its
body catches — so its settled outcome is always fulfilled), the AI pipeline
runs under its own `try/catch`, and the report is composed. -/
def analyzeAddress (env : AddressEnv) : Except Unit AddressReport :=
  if env.sourceCode.isEmpty then Except.error ()
  else
    match getContractAbi env.abiResp with
    | Except.error e => Except.error e
    | Except.ok _abi =>
      let aiFuzzing :=
        match aiPipeline env with
        | Except.ok v => v
        | Except.error _ => aiFallback
      Except.ok (mergeAddressReport env.staticR env.dynR
        (Except.ok (getGenericFuzzingAnalysis env.genExec)) aiFuzzing)

/-- Replace only the settled outcome of the Static adapter, leaving every
other engine behaviour fixed. -/
def withStatic (env : AddressEnv) (s : Except Unit Str) : AddressEnv :=
  ⟨env.sourceCode, env.abiResp, s, env.dynR, env.genExec,
   env.aiResponse, env.aiWriteOk, env.aiExec, env.interpR⟩

/-- A node of the cloned repository's filesystem: a plain file, or a
directory with a readability flag (`readable = false` makes `fs.readdir`
throw) and a list of named entries. -/
inductive FS where
  | file : FS
  | dir (readable : Bool) (entries : List (Str × FS)) : FS

/-- Model of `path.join(startPath, name)`. -/
def pathJoin (startPath name : Str) : Str := startPath ++ "/".toList ++ name

/-- Whether a path carries the recognized source extension
(`filename.endsWith('.sol')`). -/
def endsSol (p : Str) : Bool := (".sol".toList).isSuffixOf p

mutual

/-- Embedding of `findSolidityFiles` (index.js lines 139-154) on the
filesystem node found at `startPath`.  `fs.readdir` on a plain file or an
unreadable directory throws; the surrounding `try/catch` logs and returns
the (still empty) accumulator, so those nodes contribute the empty list.
A readable directory's entries are walked in order. -/
def findSolidityFiles (startPath : Str) : FS → List Str
  | FS.file => []
  | FS.dir false _ => []
  | FS.dir true entries => walkEntries startPath entries

/-- The `for` loop inside `findSolidityFiles`: subdirectories are recursed
into, files ending in `.sol` are collected. -/
def walkEntries (startPath : Str) : List (Str × FS) → List Str
  | [] => []
  | (name, sub) :: rest =>
    (match sub with
     | FS.file =>
       if endsSol (pathJoin startPath name) then [pathJoin startPath name] else []
     | FS.dir r es => findSolidityFiles (pathJoin startPath name) (FS.dir r es)) ++
    walkEntries startPath rest

end

/-- Oracles for per-file work in the repository scan: `fs.readFile` and the
static-analysis engine (`getStaticAnalysis`, i.e. the language-model call
plus JSON parse), each of which may throw for a given input. -/
structure FileEnv where
  read : Str → Except Unit Str
  analyze : Str → Except Unit Str

/-- One entry of the repository report: the file and its parsed
static-analysis payload (kept abstract as text).  The JS code stores
`path.relative(tempDir, filePath)`; the embedding keeps the full path. -/
structure FileEntry where
  file : Str
  analysis : Str
deriving DecidableEq

/-- The body of one per-file task of the batch loop (index.js lines
121-128), before its `catch`: read the file (may throw), skip files whose
trimmed content is shorter than 50 characters, analyze (may throw) and
produce the entry. -/
def fileTaskE (env : FileEnv) (p : Str) : Except Unit (Option FileEntry) :=
  match env.read p with
  | Except.error e => Except.error e
  | Except.ok content =>
    if (trimL content).length < 50 then Except.ok none
    else
      match env.analyze content with
      | Except.error e => Except.error e
      | Except.ok sa => Except.ok (some ⟨p, sa⟩)

/-- The per-file task with its `catch`: a thrown error is logged and the
file contributes no entry. -/
def fileTask (env : FileEnv) (p : Str) : Option FileEntry :=
  match fileTaskE env p with
  | Except.ok o => o
  | Except.error _ => none

/-- Embedding of the batch loop shape (index.js lines 116-133): the file
list is consumed five at a time (`files.slice(i, i + 5)`); the result is
the ordered list of batches together with the number of inter-batch pauses
(`i + BATCH_SIZE < files.length` guards each 2000ms pause, i.e. a pause
runs exactly when more files remain after the current batch). -/
def scanLoop {a : Type} (files : List a) : List (List a) × Nat :=
  if files.isEmpty then ([], 0)
  else
    let rest := files.drop 5
    let p := scanLoop rest
    (files.take 5 :: p.1, (if rest.isEmpty then 0 else 1) + p.2)
termination_by files.length
decreasing_by
  cases files with
  | nil => simp at *
  | cons x xs => simp [List.length_drop]; omega

/-- The batch sizes the claim describes: `ceil(N/5)` batches, all of size
five except the last, whose size is `N mod 5` when that is non-zero and
five otherwise. -/
def batchSizes (n : Nat) : List Nat :=
  if n = 0 then []
  else List.replicate ((n + 4) / 5 - 1) 5 ++ [if n % 5 = 0 then 5 else n % 5]

/-- The findings accumulated over all batches: within a batch every file's
caught task contributes its optional entry.  (Within one batch the JS
completion order is unspecified; the embedding fixes array order, which the
claims here do not depend on.) -/
def scanFindings (env : FileEnv) (files : List Str) : List FileEntry :=
  ((scanLoop files).1.map (fun batch => batch.filterMap (fileTask env))).flatten

/-- The fixed workspace path `path.join(__dirname, 'temp_repo')`. -/
def tempDirPath : Str := "temp_repo".toList

/-- Oracles for one repository-scan invocation: whether the shallow clone
succeeds, the cloned tree, and the per-file oracles. -/
structure RepoEnv where
  cloneOk : Bool
  tree : FS
  fileEnv : FileEnv

/-- The observable filesystem state: whether the ephemeral workspace
directory exists. -/
structure FsState where
  tempDirExists : Bool
deriving DecidableEq

/-- Embedding of `analyzeGitHubRepo` (index.js lines 109-136) with the
workspace directory's existence as explicit state.  `fs.remove` then
`fs.ensureDir` run first (so the directory exists afterwards regardless of
the initial state); a failing clone throws with no cleanup on that path —
there is no `try/finally` — so the invocation returns the error with the
directory still present; on the success path the batches run (per-file
errors are caught inside) and the final `fs.remove` deletes the
workspace. -/
def analyzeGitHubRepo (env : RepoEnv) (s0 : FsState) :
    Except Unit (List FileEntry) × FsState :=
  let _initial := s0
  let afterPrep : FsState := ⟨true⟩
  if env.cloneOk = false then (Except.error (), afterPrep)
  else
    let files := findSolidityFiles tempDirPath env.tree
    (Except.ok (scanFindings env.fileEnv files), ⟨false⟩)

/-- The value the handler observes from `analyzeGitHubRepo` (its returned
promise); the result does not depend on the initial filesystem state. -/
def analyzeGitHubRepoResult (env : RepoEnv) : Except Unit (List FileEntry) :=
  (analyzeGitHubRepo env ⟨true⟩).1

/-- The three report shapes of the unified endpoint. -/
inductive Report where
  | address (r : AddressReport)
  | repo (files : List FileEntry)
  | text (files : List FileEntry)
deriving DecidableEq

/-- The endpoint's possible responses: `res.json(finalReport)`, a 400
client error, or the 500 generic failure. -/
inductive HttpResponse where
  | okJson (r : Report)
  | badRequest (msg : Str)
  | serverError (msg : Str)
deriving DecidableEq

/-- JavaScript falsiness of an optional string field: absent fields and
empty strings are both falsy. -/
def jsFalsy : Option Str → Bool
  | none => true
  | some s => s.isEmpty

/-- Oracle environment for one inbound request across the three routes. -/
structure ReqEnv where
  addr : AddressEnv
  repo : RepoEnv
  textR : Except Unit Str

/-- Embedding of the `/analyze` handler (index.js lines 158-214): the
presence check `if (!inputType || !input)` rejects with 400 before any
pipeline runs; the `switch` routes on the exact input-type string; any
error thrown by a route is caught by the outer `try/catch` and surfaced as
the generic 500 message. -/
def analyzeHandler (env : ReqEnv) (inputType input : Option Str) : HttpResponse :=
  if jsFalsy inputType || jsFalsy input then
    HttpResponse.badRequest ("Input type and value are required.".toList)
  else
    let it := inputType.getD []
    if it = "address".toList then
      match analyzeAddress env.addr with
      | Except.ok r => HttpResponse.okJson (Report.address r)
      | Except.error _ =>
        HttpResponse.serverError ("Failed to complete analysis. Please check your input.".toList)
    else if it = "github".toList then
      match analyzeGitHubRepoResult env.repo with
      | Except.ok files => HttpResponse.okJson (Report.repo files)
      | Except.error _ =>
        HttpResponse.serverError ("Failed to complete analysis. Please check your input.".toList)
    else if it = "text".toList then
      match env.textR with
      | Except.ok sa => HttpResponse.okJson (Report.text [⟨"PastedCode.sol".toList, sa⟩])
      | Except.error _ =>
        HttpResponse.serverError ("Failed to complete analysis. Please check your input.".toList)
    else HttpResponse.badRequest ("Invalid input type.".toList)

/-- The four units of work of the `address` case: the three adapter tasks
launched through `Promise.allSettled` and the AI-driven fuzzer pipeline. -/
inductive TaskId where
  | staticA
  | dynamicA
  | genericA
  | aiP
deriving DecidableEq

/-- Observable scheduling events of the `address` case. -/
inductive Event where
  | start (t : TaskId)
  | settle (t : TaskId)
  | merge
deriving DecidableEq

/-- The adapter tasks in the array order of the `Promise.allSettled`
literal (index.js lines 171-175). -/
def adapterTasks : List TaskId := [TaskId.staticA, TaskId.dynamicA, TaskId.genericA]

/-- Trace semantics of the `address` case for an arbitrary scheduler.  The
array literal passed to `Promise.allSettled` invokes the three async
adapters synchronously in order, so their start events all precede the
first settle event; the adapters then settle in an arbitrary order `pi`
(the scheduler's choice); `await Promise.allSettled` resumes only after
all three have settled, after which the handler runs the AI pipeline
sequentially (its start, then its settle) and finally composes the report
(`merge`). -/
def addressTrace (pi : List TaskId) : List Event :=
  [Event.start TaskId.staticA, Event.start TaskId.dynamicA, Event.start TaskId.genericA] ++
    pi.map Event.settle ++
    [Event.start TaskId.aiP, Event.settle TaskId.aiP, Event.merge]

/-- `beforeB a b tr` holds when the first occurrence of `a` in `tr` is
followed (strictly later) by an occurrence of `b`. -/
def beforeB (a b : Event) : List Event → Bool
  | [] => false
  | e :: rest => if e = a then rest.contains b else beforeB a b rest

theorem scanLoop_flatten {a : Type} (files : List a) :
    ((scanLoop files).1).flatten = files := by
  induction files using scanLoop.induct with
  | case1 fs h => simp [scanLoop, h, List.isEmpty_iff.mp h]
  | case2 fs h rest ih =>
    have ih2 : (scanLoop (fs.drop 5)).1.flatten = fs.drop 5 := ih
    rw [scanLoop]
    simp only [h, Bool.false_eq_true, if_false, List.flatten_cons]
    rw [ih2, List.take_append_drop]

theorem scanLoop_pauses {a : Type} (files : List a) :
    (scanLoop files).2 = (files.length + 4) / 5 - 1 := by
  induction files using scanLoop.induct with
  | case1 fs h =>
    have h0 : fs = [] := List.isEmpty_iff.mp h
    subst h0
    simp [scanLoop]
  | case2 fs h rest ih =>
    have ih2 : (scanLoop (fs.drop 5)).2 = ((fs.drop 5).length + 4) / 5 - 1 := ih
    rw [scanLoop]
    simp only [h, Bool.false_eq_true, if_false]
    have h1 : fs.length ≠ 0 := by
      intro h0
      rw [List.length_eq_zero] at h0
      subst h0
      simp at h
    have hd : (fs.drop 5).length = fs.length - 5 := by simp
    rw [hd] at ih2
    cases he : (fs.drop 5).isEmpty with
    | true =>
      have h5 : fs.length - 5 = 0 := by
        have h6 := List.isEmpty_iff.mp he
        rw [← hd, h6]
        rfl
      simp only [he, if_true, ih2]
      omega
    | false =>
      have h5 : fs.length - 5 ≠ 0 := by
        intro h0
        rw [← hd, List.length_eq_zero] at h0
        rw [h0] at he
        simp at he
      simp only [he, Bool.false_eq_true, if_false, ih2]
      omega

theorem batchSizes_cons (n : Nat) (h : n ≠ 0) :
    (min 5 n) :: batchSizes (n - 5) = batchSizes n := by
  unfold batchSizes
  by_cases h5 : n - 5 = 0
  · have hmin : min 5 n = n := by omega
    have hrep : (n + 4) / 5 - 1 = 0 := by omega
    have hmod : (if n % 5 = 0 then 5 else n % 5) = n := by
      by_cases hm : n % 5 = 0
      · rw [if_pos hm]; omega
      · rw [if_neg hm]; omega
    rw [if_pos h5, if_neg h, hrep, hmod, hmin]
    simp
  · have hmin : min 5 n = 5 := by omega
    have hrep : (n + 4) / 5 - 1 = ((n - 5) + 4) / 5 - 1 + 1 := by omega
    have hmod : (n - 5) % 5 = n % 5 := by omega
    rw [if_neg h5, if_neg h, hmin, hmod, hrep, List.replicate_succ]
    simp

theorem scanLoop_sizes {a : Type} (files : List a) :
    (scanLoop files).1.map List.length = batchSizes files.length := by
  induction files using scanLoop.induct with
  | case1 fs h =>
    have h0 : fs = [] := List.isEmpty_iff.mp h
    subst h0
    simp [scanLoop, batchSizes]
  | case2 fs h rest ih =>
    have ih2 : (scanLoop (fs.drop 5)).1.map List.length = batchSizes (fs.drop 5).length := ih
    rw [scanLoop]
    simp only [h, Bool.false_eq_true, if_false, List.map_cons]
    rw [ih2]
    have h1 : fs.length ≠ 0 := by
      intro h0
      rw [List.length_eq_zero] at h0
      subst h0
      simp at h
    have ht : (fs.take 5).length = min 5 fs.length := by simp
    have hd : (fs.drop 5).length = fs.length - 5 := by simp
    rw [ht, hd]
    exact batchSizes_cons fs.length h1

theorem flatten_map_filterMap {a b : Type} (f : a → Option b) (l : List (List a)) :
    (l.map (fun batch => batch.filterMap f)).flatten = l.flatten.filterMap f := by
  induction l with
  | nil => simp
  | cons x xs ih => simp only [List.map_cons, List.flatten_cons, List.filterMap_append, ih]

theorem scanFindings_eq (env : FileEnv) (files : List Str) :
    scanFindings env files = files.filterMap (fileTask env) := by
  unfold scanFindings
  rw [flatten_map_filterMap, scanLoop_flatten]

theorem analyzeAddress_abi_not_found (env : AddressEnv)
    (h : env.abiResp.statusZero = true) : analyzeAddress env = Except.error () := by
  unfold analyzeAddress getContractAbi
  cases he : env.sourceCode.isEmpty with
  | true => simp [he]
  | false => simp [he, h]

theorem isEmpty_false_of_ne_nil {s : Str} (h : s ≠ []) : s.isEmpty = false := by
  cases hs : s with
  | nil => exact absurd hs h
  | cons c cs => rfl

theorem analyzeAddress_pipeline_error (env : AddressEnv) (hsrc : env.sourceCode ≠ [])
    (habi : env.abiResp.statusZero = false) (hpipe : aiPipeline env = Except.error ()) :
    analyzeAddress env = Except.ok (mergeAddressReport env.staticR env.dynR
      (Except.ok (getGenericFuzzingAnalysis env.genExec)) aiFallback) := by
  unfold analyzeAddress getContractAbi
  rw [hpipe]
  simp [isEmpty_false_of_ne_nil hsrc, habi]

theorem analyzeHandler_address (env : ReqEnv) (inp : Str) (hinp : inp ≠ []) :
    analyzeHandler env (some ("address".toList)) (some inp) =
      (match analyzeAddress env.addr with
       | Except.ok r => HttpResponse.okJson (Report.address r)
       | Except.error _ =>
         HttpResponse.serverError
           ("Failed to complete analysis. Please check your input.".toList)) := by
  unfold analyzeHandler
  simp [jsFalsy, isEmpty_false_of_ne_nil hinp]

/-- C7: for N discoverable qualifying files the scanner runs exactly
`ceil(N/5) = (N+4)/5` sequential batches whose sizes are five except for a
possibly smaller last batch of `N mod 5` (five when the remainder is zero),
pauses exactly `ceil(N/5) - 1` times — the pause guard `i + 5 < N` skips
the pause after the last batch — and drops no file. -/
theorem C7_batch_schedule {a : Type} (files : List a) :
    (scanLoop files).1.length = (files.length + 4) / 5 ∧
    (scanLoop files).2 = (files.length + 4) / 5 - 1 ∧
    (scanLoop files).1.map List.length = batchSizes files.length ∧
    (scanLoop files).1.flatten = files := by
  refine ⟨?_, scanLoop_pauses files, scanLoop_sizes files, scanLoop_flatten files⟩
  have h := congrArg List.length (scanLoop_sizes files)
  simp only [List.length_map] at h
  rw [h]
  unfold batchSizes
  by_cases h0 : files.length = 0
  · simp [h0]
  · simp only [h0, if_false]
    simp only [List.length_append, List.length_replicate, List.length_cons,
      List.length_nil]
    omega

/-- A concrete request environment whose explorer reports the ABI as not
found (`status = "0"`) while every other collaborator behaves: verified
source text is present and all engines would succeed. -/
def c1AddrEnv : AddressEnv :=
  ⟨"contract Token".toList, ⟨true, []⟩, Except.ok ("static report".toList),
   Except.ok ⟨false, "ok".toList⟩, ⟨true, [], []⟩,
   Except.ok ("```solidity contract AIGeneratedFuzzer ```".toList), true,
   ⟨true, "ok".toList, []⟩, Except.ok ("interp".toList)⟩

def c1Env : ReqEnv :=
  ⟨c1AddrEnv, ⟨true, FS.dir true [], ⟨fun _ => Except.ok [], fun _ => Except.ok []⟩⟩,
   Except.ok ("text report".toList)⟩

/-- C1 counterexample: with the explorer reporting the ABI as not found
(status flag "0") and every other collaborator healthy, the `address`
request does NOT succeed with an Address report — `getContractAbi` throws
at index.js line 170, outside the pipeline's `try` block, so the error
reaches the top-level handler and the caller receives the generic 500
response.  This refutes the claim that an ABI-not-found lookup is surfaced
as an `aiFuzzing: incompatible` result inside a successful Address
report. -/
theorem C1_counterexample :
    c1Env.addr.abiResp.statusZero = true ∧
    analyzeHandler c1Env (some ("address".toList)) (some ("0xabc".toList)) =
      HttpResponse.serverError
        ("Failed to complete analysis. Please check your input.".toList) := by
  constructor
  · rfl
  · rfl

/-- C1 (amended): when the explorer's ABI lookup reports the ABI as not
found, the thrown error propagates out of the `address` case to the
top-level handler and the whole request fails with the generic 500
response (no Address report is produced); errors thrown by the AI-driven
fuzzer pipeline stages themselves (model call, extraction, file write,
harness run, interpretation) are caught and surfaced as
`aiFuzzing = {status:'incompatible', reason:'AI-driven fuzzing process
failed to run.'}` while the request still succeeds with a full Address
report. -/
theorem C1_abi_failure_handling (env : ReqEnv) (inp : Str) (hinp : inp ≠ []) :
    (env.addr.abiResp.statusZero = true →
      analyzeHandler env (some ("address".toList)) (some inp) =
        HttpResponse.serverError
          ("Failed to complete analysis. Please check your input.".toList)) ∧
    (env.addr.sourceCode ≠ [] → env.addr.abiResp.statusZero = false →
      aiPipeline env.addr = Except.error () →
      analyzeHandler env (some ("address".toList)) (some inp) =
        HttpResponse.okJson (Report.address (mergeAddressReport env.addr.staticR env.addr.dynR
          (Except.ok (getGenericFuzzingAnalysis env.addr.genExec)) aiFallback))) := by
  constructor
  · intro habi
    rw [analyzeHandler_address env inp hinp, analyzeAddress_abi_not_found env.addr habi]
  · intro hsrc habi hpipe
    rw [analyzeHandler_address env inp hinp,
      analyzeAddress_pipeline_error env.addr hsrc habi hpipe]

/-- Same request environment as the counterexample but with the ABI lookup
succeeding and the model call of the pipeline rejecting. -/
def c1OkAddrEnv : AddressEnv :=
  ⟨"contract Token".toList, ⟨false, "abi".toList⟩, Except.ok ("static report".toList),
   Except.ok ⟨false, "ok".toList⟩, ⟨true, [], []⟩, Except.error (), true,
   ⟨true, "ok".toList, []⟩, Except.ok ("interp".toList)⟩

def c1OkEnv : ReqEnv :=
  ⟨c1OkAddrEnv, ⟨true, FS.dir true [], ⟨fun _ => Except.ok [], fun _ => Except.ok []⟩⟩,
   Except.ok ("text report".toList)⟩

theorem C1_abi_failure_handling_witness :
    (("0xabc".toList : Str) ≠ []) ∧
    (c1Env.addr.abiResp.statusZero = true →
      analyzeHandler c1Env (some ("address".toList)) (some ("0xabc".toList)) =
        HttpResponse.serverError
          ("Failed to complete analysis. Please check your input.".toList)) ∧
    (c1OkEnv.addr.sourceCode ≠ [] → c1OkEnv.addr.abiResp.statusZero = false →
      aiPipeline c1OkEnv.addr = Except.error () →
      analyzeHandler c1OkEnv (some ("address".toList)) (some ("0xabc".toList)) =
        HttpResponse.okJson (Report.address (mergeAddressReport c1OkEnv.addr.staticR
          c1OkEnv.addr.dynR (Except.ok (getGenericFuzzingAnalysis c1OkEnv.addr.genExec))
          aiFallback))) :=
  ⟨by decide,
   (C1_abi_failure_handling c1Env ("0xabc".toList) (by decide)).1,
   (C1_abi_failure_handling c1OkEnv ("0xabc".toList) (by decide)).2⟩

/-- C2: every composed Address report carries all four fields by
construction, and a failed task is replaced by exactly its fallback
sentinel: `staticAnalysis = null` for a rejected Static task, the
honeypot fallback object for a rejected Dynamic task, the
generic-fuzzing-failed sentinel for a rejected Generic Fuzzer task, and
the AI sentinel when the pipeline threw. -/
theorem C2_fallback_sentinels (s : Except Unit Str) (d : Except Unit DynResult)
    (g : Except Unit FuzzOutcome) (ai : FuzzOutcome) (env : AddressEnv) :
    (s = Except.error () → (mergeAddressReport s d g ai).staticAnalysis = none) ∧
    (d = Except.error () → (mergeAddressReport s d g ai).dynamicAnalysis = honeypotFallback) ∧
    (g = Except.error () → (mergeAddressReport s d g ai).genericFuzzing = genericFallback) ∧
    ((mergeAddressReport s d g ai).aiFuzzing = ai) ∧
    (env.sourceCode ≠ [] → env.abiResp.statusZero = false →
      aiPipeline env = Except.error () →
      analyzeAddress env = Except.ok (mergeAddressReport env.staticR env.dynR
        (Except.ok (getGenericFuzzingAnalysis env.genExec)) aiFallback)) := by
  refine ⟨?_, ?_, ?_, rfl, analyzeAddress_pipeline_error env⟩
  · intro h; subst h; rfl
  · intro h; subst h; rfl
  · intro h; subst h; rfl

def c2Env : AddressEnv :=
  ⟨"contract Token".toList, ⟨false, "abi".toList⟩, Except.error (), Except.error (),
   ⟨true, [], []⟩, Except.error (), true, ⟨true, [], []⟩, Except.error ()⟩

theorem C2_fallback_sentinels_witness :
    ((mergeAddressReport (Except.error ()) (Except.error ()) (Except.error ())
        aiFallback).staticAnalysis = none) ∧
    ((mergeAddressReport (Except.error ()) (Except.error ()) (Except.error ())
        aiFallback).dynamicAnalysis = honeypotFallback) ∧
    ((mergeAddressReport (Except.error ()) (Except.error ()) (Except.error ())
        aiFallback).genericFuzzing = genericFallback) ∧
    ((mergeAddressReport (Except.error ()) (Except.error ()) (Except.error ())
        aiFallback).aiFuzzing = aiFallback) ∧
    (analyzeAddress c2Env = Except.ok (mergeAddressReport c2Env.staticR c2Env.dynR
      (Except.ok (getGenericFuzzingAnalysis c2Env.genExec)) aiFallback)) :=
  ⟨(C2_fallback_sentinels (Except.error ()) (Except.error ()) (Except.error ())
      aiFallback c2Env).1 rfl,
   (C2_fallback_sentinels (Except.error ()) (Except.error ()) (Except.error ())
      aiFallback c2Env).2.1 rfl,
   (C2_fallback_sentinels (Except.error ()) (Except.error ()) (Except.error ())
      aiFallback c2Env).2.2.1 rfl,
   (C2_fallback_sentinels (Except.error ()) (Except.error ()) (Except.error ())
      aiFallback c2Env).2.2.2.1,
   (C2_fallback_sentinels (Except.error ()) (Except.error ()) (Except.error ())
      aiFallback c2Env).2.2.2.2 (by decide) rfl rfl⟩

theorem aiPipeline_withStatic (env : AddressEnv) (s : Except Unit Str) :
    aiPipeline (withStatic env s) = aiPipeline env := rfl

/-- C9: two address-analysis runs that differ only in the settled outcome
of the Static adapter (every other engine behaviour held fixed) produce
reports with identical `dynamicAnalysis` and `genericFuzzing` fields; this
holds whether either run fails or succeeds as a whole. -/
theorem C9_static_isolation (env : AddressEnv) (s1 s2 : Except Unit Str) :
    Except.map (fun r => (r.dynamicAnalysis, r.genericFuzzing))
        (analyzeAddress (withStatic env s1)) =
      Except.map (fun r => (r.dynamicAnalysis, r.genericFuzzing))
        (analyzeAddress (withStatic env s2)) := by
  have hp1 : aiPipeline (withStatic env s1) = aiPipeline env := rfl
  have hp2 : aiPipeline (withStatic env s2) = aiPipeline env := rfl
  unfold analyzeAddress
  rw [hp1, hp2]
  simp only [withStatic]
  cases he : env.sourceCode.isEmpty with
  | true => simp [he]
  | false =>
    simp only [he, Bool.false_eq_true, if_false]
    cases ha : getContractAbi env.abiResp with
    | error u => simp [ha]
    | ok v => simp [ha, mergeAddressReport, Except.map]

/-- C10: the dispatcher's presence check treats the empty string exactly
like a missing field — a request whose `input` (or `inputType`) is the
empty string is rejected with the 400 response
`{error: 'Input type and value are required.'}`, and the response is
independent of every pipeline oracle, i.e. no pipeline is consulted. -/
theorem C10_empty_input_rejected (env env2 : ReqEnv) (it inp : Option Str) :
    (analyzeHandler env it (some []) =
      HttpResponse.badRequest ("Input type and value are required.".toList)) ∧
    (analyzeHandler env (some []) inp =
      HttpResponse.badRequest ("Input type and value are required.".toList)) ∧
    (analyzeHandler env it (some []) = analyzeHandler env2 it (some [])) ∧
    (analyzeHandler env (some []) inp = analyzeHandler env2 (some []) inp) := by
  refine ⟨?_, ?_, ?_, ?_⟩ <;> simp [analyzeHandler, jsFalsy]

/-- A model response containing exactly one fenced code block — untagged,
as a model is free to answer. -/
def c4Resp : Str := "Here is the test:\n```\ncontract C is Test\n```\nGood luck.".toList

/-- C4 counterexample: the response `c4Resp` contains exactly one fenced
code block, whose trimmed inner text the spec-modelled extractor returns,
yet `generateFuzzTest` fails on it (`none`, i.e. the stage throws and the
pipeline is downgraded): the regex of index.js line 75 only matches a
fence opened with the `solidity` tag.  This refutes the claim for
responses with exactly one (untagged) fenced code block. -/
theorem C4_counterexample :
    countFencedBlocks c4Resp = 1 ∧
    specExtractFenced c4Resp = some ("contract C is Test".toList) ∧
    generateFuzzTest c4Resp = none := by
  refine ⟨?_, ?_, ?_⟩ <;> decide

/-- C4 (amended): the extraction round-trip holds for the blocks the code
actually matches: for a response whose first backtick introduces a single
`solidity`-tagged fenced block with non-empty inner text (no backtick
occurs before the block or inside it), the stage returns exactly the inner
text with the fence markers removed and leading/trailing whitespace
trimmed; and a response containing no triple-backtick fence at all makes
the stage fail (pipeline → Unavailable). -/
theorem C4_extraction_roundtrip (pre inner post : Str)
    (h1 : backtickChar ∉ pre) (h2 : backtickChar ∉ inner) (h3 : inner ≠ []) :
    (generateFuzzTest (pre ++ solFence ++ inner ++ fenceStr ++ post) = some (trimL inner)) ∧
    (∀ s : Str, splitAtFirst fenceStr s = none → generateFuzzTest s = none) :=
  ⟨generateFuzzTest_roundtrip pre inner post h1 h2 h3,
   generateFuzzTest_none_of_no_fence⟩

theorem C4_extraction_roundtrip_witness :
    (backtickChar ∉ ("A Foundry test:\n".toList : Str)) ∧
    (backtickChar ∉ ("\ncontract AIGeneratedFuzzer is Test \n".toList : Str)) ∧
    (("\ncontract AIGeneratedFuzzer is Test \n".toList : Str) ≠ []) ∧
    (generateFuzzTest ("A Foundry test:\n".toList ++ solFence ++
        "\ncontract AIGeneratedFuzzer is Test \n".toList ++ fenceStr ++ "\nDone.".toList) =
      some (trimL ("\ncontract AIGeneratedFuzzer is Test \n".toList))) ∧
    (∀ s : Str, splitAtFirst fenceStr s = none → generateFuzzTest s = none) :=
  ⟨by decide, by decide, by decide,
   (C4_extraction_roundtrip ("A Foundry test:\n".toList)
      ("\ncontract AIGeneratedFuzzer is Test \n".toList) ("\nDone.".toList)
      (by decide) (by decide) (by decide)).1,
   (C4_extraction_roundtrip ("A Foundry test:\n".toList)
      ("\ncontract AIGeneratedFuzzer is Test \n".toList) ("\nDone.".toList)
      (by decide) (by decide) (by decide)).2⟩

def c5FileEnv : FileEnv := ⟨fun _ => Except.ok [], fun _ => Except.ok []⟩

/-- A repository-scan environment whose shallow clone fails. -/
def c5FailEnv : RepoEnv := ⟨false, FS.dir true [], c5FileEnv⟩

/-- A repository-scan environment whose shallow clone succeeds. -/
def c5OkEnv : RepoEnv := ⟨true, FS.dir true [], c5FileEnv⟩

/-- C5 counterexample: when the clone fails, `analyzeGitHubRepo` returns
(throws) with the ephemeral workspace still present — `fs.remove(tempDir)`
at index.js line 134 is only reached on the success path, there is no
`try/finally` — refuting the claim that the workspace is removed
unconditionally before the invocation returns on any failure. -/
theorem C5_counterexample :
    c5FailEnv.cloneOk = false ∧
    (analyzeGitHubRepo c5FailEnv ⟨false⟩).1 = Except.error () ∧
    (analyzeGitHubRepo c5FailEnv ⟨false⟩).2.tempDirExists = true := by
  refine ⟨rfl, rfl, rfl⟩

/-- C5 (amended): on a successful invocation the ephemeral workspace is
removed before the scan returns (and per-file failures cannot make the
scan fail, so the clone is the only failure point); when the clone fails
the error propagates with the workspace left in place — it is only cleared
again by the initial `fs.remove` of the next invocation. -/
theorem C5_workspace_cleanup (env : RepoEnv) (s0 : FsState) :
    (env.cloneOk = true →
      (analyzeGitHubRepo env s0).1 =
        Except.ok (scanFindings env.fileEnv (findSolidityFiles tempDirPath env.tree)) ∧
      (analyzeGitHubRepo env s0).2.tempDirExists = false) ∧
    (env.cloneOk = false →
      (analyzeGitHubRepo env s0).1 = Except.error () ∧
      (analyzeGitHubRepo env s0).2.tempDirExists = true) := by
  constructor
  · intro h
    unfold analyzeGitHubRepo
    rw [h]
    simp
  · intro h
    unfold analyzeGitHubRepo
    rw [h]
    simp

theorem C5_workspace_cleanup_witness :
    ((analyzeGitHubRepo c5OkEnv ⟨false⟩).1 =
        Except.ok (scanFindings c5OkEnv.fileEnv (findSolidityFiles tempDirPath c5OkEnv.tree)) ∧
      (analyzeGitHubRepo c5OkEnv ⟨false⟩).2.tempDirExists = false) ∧
    ((analyzeGitHubRepo c5FailEnv ⟨true⟩).1 = Except.error () ∧
      (analyzeGitHubRepo c5FailEnv ⟨true⟩).2.tempDirExists = true) :=
  ⟨(C5_workspace_cleanup c5OkEnv ⟨false⟩).1 rfl,
   (C5_workspace_cleanup c5FailEnv ⟨true⟩).2 rfl⟩

/-- A non-zero exit whose stdout is non-empty (no marker) while the
compiler-error marker sits in stderr. -/
def c6Exec : ExecResult :=
  ⟨false, "FAIL: assertion violated".toList, "Compiler error: bad pragma".toList⟩

/-- C6 counterexample: the combined captured output (stdout followed by
stderr) contains the compiler-error marker, yet the adapter classifies the
run as `failed`, not `incompatible`: index.js line 52 inspects
`error.stdout || error.stderr`, i.e. only stderr when stdout is empty,
never the combination.  This refutes the claim as stated over the combined
output. -/
theorem C6_counterexample :
    hasCompilerMarker (c6Exec.stdout ++ c6Exec.stderr) = true ∧
    getGenericFuzzingAnalysis c6Exec =
      ⟨"failed".toList,
       "Generic invariant violated. Details: ".toList ++ c6Exec.stdout⟩ := by
  constructor
  · decide
  · decide

/-- C6 (amended): exit code zero yields `passed`; a non-zero exit is
classified from the inspected log — the captured stdout when non-empty,
otherwise the captured stderr: with a compiler-error marker
("Compiler error" or "compilation failed") in that log the outcome is
exactly the incompatibility sentinel, otherwise `failed` with the
inspected log embedded in the reason. -/
theorem C6_generic_classification (r : ExecResult) :
    (r.ok = true → getGenericFuzzingAnalysis r =
      ⟨"passed".toList, "All generic invariants passed.".toList⟩) ∧
    (r.ok = false → hasCompilerMarker (errorLogOf r) = true →
      getGenericFuzzingAnalysis r =
        ⟨"incompatible".toList,
         "Generic test suite was not compatible with this contract.".toList⟩) ∧
    (r.ok = false → hasCompilerMarker (errorLogOf r) = false →
      getGenericFuzzingAnalysis r =
        ⟨"failed".toList, "Generic invariant violated. Details: ".toList ++ errorLogOf r⟩) := by
  refine ⟨?_, ?_, ?_⟩
  · intro h
    unfold getGenericFuzzingAnalysis
    rw [h]
    simp
  · intro h hm
    unfold getGenericFuzzingAnalysis
    rw [h, hm]
    simp
  · intro h hm
    unfold getGenericFuzzingAnalysis
    rw [h, hm]
    simp

def c6PassExec : ExecResult := ⟨true, [], []⟩

def c6IncompatExec : ExecResult := ⟨false, "Compiler error: x".toList, []⟩

theorem C6_generic_classification_witness :
    (getGenericFuzzingAnalysis c6PassExec =
      ⟨"passed".toList, "All generic invariants passed.".toList⟩) ∧
    (getGenericFuzzingAnalysis c6IncompatExec =
      ⟨"incompatible".toList,
       "Generic test suite was not compatible with this contract.".toList⟩) ∧
    (getGenericFuzzingAnalysis c6Exec =
      ⟨"failed".toList, "Generic invariant violated. Details: ".toList ++ errorLogOf c6Exec⟩) :=
  ⟨(C6_generic_classification c6PassExec).1 rfl,
   (C6_generic_classification c6IncompatExec).2.1 rfl (by decide),
   (C6_generic_classification c6Exec).2.2 rfl (by decide)⟩

theorem fileTaskE_file_eq (env : FileEnv) (p : Str) (e : FileEntry)
    (h : fileTaskE env p = Except.ok (some e)) : e.file = p := by
  unfold fileTaskE at h
  cases hr : env.read p with
  | error u => rw [hr] at h; simp at h
  | ok content =>
    rw [hr] at h
    dsimp only at h
    by_cases hs : (trimL content).length < 50
    · rw [if_pos hs] at h; simp at h
    · rw [if_neg hs] at h
      cases ha : env.analyze content with
      | error u => rw [ha] at h; simp at h
      | ok sa =>
        rw [ha] at h
        simp only [Except.ok.injEq, Option.some.injEq] at h
        cases h
        rfl

theorem fileTask_file_eq (env : FileEnv) (p : Str) (e : FileEntry)
    (h : fileTask env p = some e) : e.file = p := by
  unfold fileTask at h
  cases hf : fileTaskE env p with
  | error u => rw [hf] at h; simp at h
  | ok o =>
    rw [hf] at h
    cases o with
    | none => simp at h
    | some e2 =>
      simp only [Option.some.injEq] at h
      rw [h] at hf
      exact fileTaskE_file_eq env p e hf

theorem fileTask_none_of_error (env : FileEnv) (p : Str)
    (h : fileTaskE env p = Except.error ()) : fileTask env p = none := by
  unfold fileTask
  rw [h]

/-- C8: the scan's findings are exactly the per-file task results — a file
whose read or analysis throws is caught and contributes no entry while
every other file is unaffected, and the whole scan still returns a plain
findings list (it is a total function of its oracles: no unhandled error);
`fs.readdir` failing on a directory makes that directory contribute the
empty subtree while the enclosing recursive walk continues with its
remaining entries. -/
theorem C8_per_file_isolation (env : FileEnv) (files : List Str) :
    (scanFindings env files = files.filterMap (fileTask env)) ∧
    (∀ p ∈ files, fileTaskE env p = Except.error () →
      ∀ e ∈ scanFindings env files, e.file ≠ p) ∧
    (∀ (startPath : Str) (entries : List (Str × FS)),
      findSolidityFiles startPath (FS.dir false entries) = []) ∧
    (∀ (startPath name : Str) (entries : List (Str × FS)) (rest : List (Str × FS)),
      findSolidityFiles startPath (FS.dir true ((name, FS.dir false entries) :: rest)) =
        findSolidityFiles startPath (FS.dir true rest)) := by
  refine ⟨scanFindings_eq env files, ?_, ?_, ?_⟩
  · intro p _hp herr e he hef
    rw [scanFindings_eq] at he
    rcases List.mem_filterMap.mp he with ⟨q, _hq, hfq⟩
    have hq2 : e.file = q := fileTask_file_eq env q e hfq
    have hpq : q = p := by rw [← hq2, hef]
    rw [hpq, fileTask_none_of_error env p herr] at hfq
    cases hfq
  · intro startPath entries
    rfl
  · intro startPath name entries rest
    simp [findSolidityFiles, walkEntries]

def c8Good : Str := pathJoin tempDirPath ("good.sol".toList)

def c8Bad : Str := pathJoin tempDirPath ("bad.sol".toList)

/-- Per-file oracles where reading `bad.sol` throws while `good.sol` reads
sixty characters of content and analyzes cleanly. -/
def c8FileEnv : FileEnv :=
  ⟨fun p => if p = c8Bad then Except.error () else Except.ok (List.replicate 60 'a'),
   fun _ => Except.ok ("report".toList)⟩

theorem C8_per_file_isolation_witness :
    ((scanFindings c8FileEnv [c8Good, c8Bad] =
        [c8Good, c8Bad].filterMap (fileTask c8FileEnv)) ∧
      (∀ p ∈ [c8Good, c8Bad], fileTaskE c8FileEnv p = Except.error () →
        ∀ e ∈ scanFindings c8FileEnv [c8Good, c8Bad], e.file ≠ p) ∧
      (∀ (startPath : Str) (entries : List (Str × FS)),
        findSolidityFiles startPath (FS.dir false entries) = []) ∧
      (∀ (startPath name : Str) (entries : List (Str × FS)) (rest : List (Str × FS)),
        findSolidityFiles startPath (FS.dir true ((name, FS.dir false entries) :: rest)) =
          findSolidityFiles startPath (FS.dir true rest))) ∧
    fileTaskE c8FileEnv c8Bad = Except.error () ∧
    [c8Good, c8Bad].filterMap (fileTask c8FileEnv) = [⟨c8Good, "report".toList⟩] :=
  ⟨C8_per_file_isolation c8FileEnv [c8Good, c8Bad], by decide, by decide⟩

theorem contains_of_mem {l : List Event} {e : Event} (h : e ∈ l) :
    l.contains e = true := List.elem_iff.mpr h

theorem beforeB_cons (a b e : Event) (rest : List Event) :
    beforeB a b (e :: rest) =
      if e = a then rest.contains b else beforeB a b rest := rfl

theorem beforeB_append_of_mem {l post : List Event} {a b : Event}
    (ha : a ∈ l) (hb : b ∈ post) : beforeB a b (l ++ post) = true := by
  induction l with
  | nil => cases ha
  | cons e rest ih =>
    rw [List.cons_append, beforeB_cons]
    by_cases he : e = a
    · rw [if_pos he]
      exact contains_of_mem (List.mem_append.mpr (Or.inr hb))
    · rw [if_neg he]
      cases ha with
      | head => exact absurd rfl he
      | tail _ hm => exact ih hm

theorem count_settle_map (t : TaskId) (l : List TaskId) :
    (l.map Event.settle).count (Event.settle t) = l.count t :=
  List.count_map_of_injective l Event.settle (fun a b h => by injection h) t

/-- C3 counterexample: in the admissible schedule where the three adapters
settle in array order, the Static adapter settles strictly before the AI
pipeline starts, and the AI pipeline's start is never followed by the
Static adapter's settle: index.js awaits `Promise.allSettled` (line 171)
and only then enters the pipeline `try` block (lines 177-178).  So the
three adapter tasks and the AI pipeline do not all start together
concurrently, refuting the claim as stated. -/
theorem C3_counterexample :
    beforeB (Event.settle TaskId.staticA) (Event.start TaskId.aiP)
        (addressTrace adapterTasks) = true ∧
    beforeB (Event.start TaskId.aiP) (Event.settle TaskId.staticA)
        (addressTrace adapterTasks) = false := by
  constructor
  · decide
  · decide

/-- C3 (amended): for every admissible settle order of the three adapters:
the three adapter tasks start together (each start precedes every adapter
settle) and settle independently in the scheduler's arbitrary order;
nothing is cancelled or dropped (each of the four tasks settles exactly
once); the AI-driven fuzzer pipeline starts only after all three adapters
have settled (not concurrently with them); and the merge step runs only
after all four tasks have settled. -/
theorem C3_schedule (pi : List TaskId) (hp : pi.Perm adapterTasks) :
    (∀ t ∈ adapterTasks, ∀ u ∈ adapterTasks,
      beforeB (Event.start t) (Event.settle u) (addressTrace pi) = true) ∧
    (∀ t : TaskId, (addressTrace pi).count (Event.settle t) = 1) ∧
    (∀ t ∈ adapterTasks,
      beforeB (Event.settle t) (Event.start TaskId.aiP) (addressTrace pi) = true) ∧
    (∀ t : TaskId, beforeB (Event.settle t) Event.merge (addressTrace pi) = true) := by
  refine ⟨?_, ?_, ?_, ?_⟩
  · intro t ht u hu
    have h1 : Event.start t ∈
        [Event.start TaskId.staticA, Event.start TaskId.dynamicA,
          Event.start TaskId.genericA] := by
      simp only [adapterTasks, List.mem_cons, List.not_mem_nil, or_false] at ht
      rcases ht with h | h | h <;> (subst h; simp)
    have h2 : Event.settle u ∈ pi.map Event.settle ++
        [Event.start TaskId.aiP, Event.settle TaskId.aiP, Event.merge] :=
      List.mem_append.mpr (Or.inl (List.mem_map_of_mem _ (hp.mem_iff.mpr hu)))
    have htr : addressTrace pi =
        [Event.start TaskId.staticA, Event.start TaskId.dynamicA,
          Event.start TaskId.genericA] ++
          (pi.map Event.settle ++
            [Event.start TaskId.aiP, Event.settle TaskId.aiP, Event.merge]) := by
      simp [addressTrace]
    rw [htr]
    exact beforeB_append_of_mem h1 h2
  · intro t
    have hmapc : (pi.map Event.settle).count (Event.settle t) = pi.count t :=
      count_settle_map t pi
    have hpc : pi.count t = adapterTasks.count t := hp.count_eq t
    unfold addressTrace
    rw [List.count_append, List.count_append, hmapc, hpc]
    cases t <;> decide
  · intro t ht
    have h1 : Event.settle t ∈
        [Event.start TaskId.staticA, Event.start TaskId.dynamicA,
          Event.start TaskId.genericA] ++ pi.map Event.settle :=
      List.mem_append.mpr (Or.inr (List.mem_map_of_mem _ (hp.mem_iff.mpr ht)))
    have h2 : Event.start TaskId.aiP ∈
        ([Event.start TaskId.aiP, Event.settle TaskId.aiP, Event.merge] : List Event) := by
      simp
    unfold addressTrace
    exact beforeB_append_of_mem h1 h2
  · intro t
    have h1 : Event.settle t ∈
        ([Event.start TaskId.staticA, Event.start TaskId.dynamicA,
            Event.start TaskId.genericA] ++ pi.map Event.settle) ++
          [Event.start TaskId.aiP, Event.settle TaskId.aiP] := by
      by_cases hai : t = TaskId.aiP
      · subst hai; simp
      · have hta : t ∈ adapterTasks := by
          cases t with
          | staticA => decide
          | dynamicA => decide
          | genericA => decide
          | aiP => exact absurd rfl hai
        exact List.mem_append.mpr (Or.inl (List.mem_append.mpr (Or.inr
          (List.mem_map_of_mem _ (hp.mem_iff.mpr hta)))))
    have htr : addressTrace pi =
        (([Event.start TaskId.staticA, Event.start TaskId.dynamicA,
            Event.start TaskId.genericA] ++ pi.map Event.settle) ++
          [Event.start TaskId.aiP, Event.settle TaskId.aiP]) ++ [Event.merge] := by
      simp [addressTrace]
    rw [htr]
    exact beforeB_append_of_mem h1 (by simp)

theorem C3_schedule_witness :
    (∀ t ∈ adapterTasks, ∀ u ∈ adapterTasks,
      beforeB (Event.start t) (Event.settle u) (addressTrace adapterTasks) = true) ∧
    (∀ t : TaskId, (addressTrace adapterTasks).count (Event.settle t) = 1) ∧
    (∀ t ∈ adapterTasks,
      beforeB (Event.settle t) (Event.start TaskId.aiP) (addressTrace adapterTasks) = true) ∧
    (∀ t : TaskId, beforeB (Event.settle t) Event.merge (addressTrace adapterTasks) = true) :=
  C3_schedule adapterTasks (List.Perm.refl adapterTasks)

end VeriSol
